import Mathlib

/-!
Verification of the TrainChimp fine-tuning worker against its specification.

The development shallowly embeds the three worker variants of the repository:

* `src/backend/aws/finetuning_service.py` — the queue/SQL-backed variant
  (`CloudflareClient`, `SupabaseClient`, `FineTuningService.fine_tune` / `run`);
* `src/runpod/finetuning_service_unsloth.py` — the model-hub-as-database variant
  whose status sink is the tag list of a hosted model card;
* `src/runpod/finetuning_service.py` — the single-job model-hub variant using
  `metadata_update`;
* `src/runpod/error_handler.py` — the out-of-band status updater.

Side effects (queue fetches, status writes, pushes, training, uploads) are
recorded as explicit effect traces; external failures are supplied by an
outcome oracle (one field per fallible call).  Python locals that may be
referenced before assignment (`cf_client`, `base_model`, `card`) are modelled
with `Option`, `none` meaning the attribute/local is unbound, so that
`AttributeError` / `UnboundLocalError` / `NameError` paths are represented
faithfully.  Successive `datetime.now()` / `get_utc_time()` reads are modelled
as a strictly increasing `Nat` counter.  Strings manipulated by `startswith`
and slicing are modelled as `List Char`, with `isPre` playing the role of
`str.startswith`.
-/

namespace TrainChimp

/-- Python strings as character lists (so that `startswith` and `[:100]`
slicing have a direct counterpart). -/
abbrev Chars := List Char

/-- Conversion from a Lean string literal to the character-list model. -/
def strT (s : String) : Chars := s.toList

/-- Python `str.startswith`: `isPre p s` is true iff `p` is a prefix of `s`. -/
def isPre : Chars → Chars → Bool
  | [], _ => true
  | _, [] => false
  | a :: as, b :: bs => a == b && isPre as bs

/-- The tag key `status:` used by the model-hub variants. -/
def statusKey : Chars := strT "status:"

/-- The tag key `error_details:` used by the model-hub variants. -/
def errKey : Chars := strT "error_details:"

/-- Job and model statuses occurring anywhere in the repository
(job rows use pending/running/completed/failed, model rows additionally use
training/ready, model-card tags additionally use loading_model). -/
inductive Status
  | pending
  | running
  | completed
  | failed
  | training
  | ready
  | loading_model
  deriving DecidableEq, BEq, Repr

/-- Rendering of a status, as it appears in SQL values and card tags. -/
def statusName : Status → String
  | .pending => "pending"
  | .running => "running"
  | .completed => "completed"
  | .failed => "failed"
  | .training => "training"
  | .ready => "ready"
  | .loading_model => "loading_model"

/-- Python exceptions relevant to the worker: attribute/local-binding errors
and ordinary raised exceptions carrying their `str(e)` message. -/
inductive PyErr
  | attributeError
  | unboundLocalError
  | nameError
  | raised (msg : Chars)
  deriving DecidableEq, Repr

/-- The `str(e)` rendering of an exception, as interpolated into tags. -/
def PyErr.msg : PyErr → Chars
  | .attributeError => strT "AttributeError"
  | .unboundLocalError => strT "UnboundLocalError"
  | .nameError => strT "NameError"
  | .raised m => m

/-! ## The queue/SQL-backed variant (src/backend/aws/finetuning_service.py) -/

/-- A fine-tuning job body, the fields `fine_tune` reads from the queue
message (`training_params` only feeds defaults into the trainer and is not
modelled beyond that). -/
structure JobData where
  job_id : String
  model_id : String
  dataset_id : String
  base_model : String
  deriving DecidableEq, Repr

/-- A message sitting in the job queue. -/
structure QueueMsg where
  body : JobData
  msg_id : String
  deriving DecidableEq, Repr

/-- Observable calls the queue/SQL worker makes against its backends.
`updateJobStatus`/`updateModelStatus` record the status and the optional
`started_at`/`completed_at` (resp. `lora_adapter_url`) fields passed. -/
inductive AwsEffect
  | getNextJob
  | updateJobStatus (jobId : String) (st : Status)
      (startedAt : Option Nat) (completedAt : Option Nat)
  | updateModelStatus (modelId : String) (st : Status) (adapterUrl : Option String)
  | d1Query
  | downloadDataset (datasetId : String)
  | loadTokenizer (baseModel : String)
  | loadBaseModel (baseModel : String)
  | train (modelId : String)
  | makeZip (modelId : String)
  | uploadPut (modelId : String)
  | removeZip (modelId : String)
  | deleteJob (messageId : String)
  | resetModel (baseModel : String)
  | logError
  | sleep
  deriving DecidableEq, Repr

/-- Outcome oracle for the fallible external calls of the queue/SQL variant.
The boolean results of `update_job_status` / `update_model_status` are ignored
by `fine_tune` (the writers catch their own exceptions), so no oracle fields
exist for them; see `CloudflareClient.update_job_status` below. -/
structure AwsOutcomes where
  getJobOk : Bool
  deleteOk : Bool
  downloadOk : Bool
  tokenizerOk : Bool
  loadOk : Bool
  processOk : Bool
  trainOk : Bool
  uploadOk : Bool
  deriving DecidableEq, Repr

/-- The mutable state of the queue/SQL `FineTuningService` object.
`__init__` assigns `self.client`; the attribute `self.cf_client` read by
`run` and `fine_tune` is never assigned anywhere, hence a separate field
that stays `none` for objects built by the constructor.  `models` and
`tokenizers` are the key sets of the instance dictionaries. -/
structure AwsService where
  client : Option Unit
  cf_client : Option Unit
  models : List String
  tokenizers : List String
  deriving DecidableEq, Repr

/-- The state produced by `FineTuningService.__init__` (one backend client
supplied): `self.client` is set, `self.cf_client` is not. -/
def awsInit : AwsService :=
  { client := some (), cf_client := none, models := [], tokenizers := [] }

/-- A hypothetical service state in which `cf_client` is bound, used to reason
about the processing logic those methods were written to execute. -/
def awsBound : AwsService :=
  { client := some (), cf_client := some (), models := [], tokenizers := [] }

/-- The adapter URL `CloudflareClient.upload_model` returns on success. -/
def adapterUrlOf (modelId : String) : String :=
  "r2/buckets/trainchimp-bucket/objects/models/" ++ modelId ++ "/adapter.zip"

/-- Result of one `upload_model` call: its backend calls, its return value or
exception, and whether the temporary `/tmp/<model_id>.zip` file still exists
when the call exits. -/
structure UploadOut where
  effects : List AwsEffect
  result : Except PyErr String
  zipLeft : Bool
  deriving Repr

/-- CloudflareClient.upload_model: `shutil.make_archive` builds the zip, then
inside `try` the PUT runs and `os.remove(zip_path)` is executed only after a
successful PUT; on exception the error is logged and re-raised with the zip
still on disk. -/
def CloudflareClient.upload_model (modelId : String) (ok : Bool) : UploadOut :=
  if ok then
    { effects := [.makeZip modelId, .uploadPut modelId, .removeZip modelId],
      result := .ok (adapterUrlOf modelId),
      zipLeft := false }
  else
    { effects := [.makeZip modelId, .uploadPut modelId, .logError],
      result := .error (.raised (strT "upload failed")),
      zipLeft := true }

/-- SupabaseClient.upload_model: same shape — zip built first, uploaded, and
`os.remove(zip_path)` only runs after a successful upload; on exception the
error is logged and re-raised with the zip left behind. -/
def SupabaseClient.upload_model (modelId : String) (ok : Bool) : UploadOut :=
  if ok then
    { effects := [.makeZip modelId, .uploadPut modelId, .removeZip modelId],
      result := .ok ("models/" ++ modelId ++ "/adapter.zip"),
      zipLeft := false }
  else
    { effects := [.makeZip modelId, .uploadPut modelId, .logError],
      result := .error (.raised (strT "upload failed")),
      zipLeft := true }

/-- CloudflareClient.update_job_status: issues one D1 query; any exception is
caught, logged, and turned into a `false` return value — the caller never sees
an exception, and the write is attempted exactly once. -/
def CloudflareClient.update_job_status (ok : Bool) : List AwsEffect × Bool :=
  if ok then ([.d1Query], true) else ([.d1Query, .logError], false)

/-- FineTuningService.load_base_model: the tokenizer is fetched first and
cached in `self.tokenizers` (and survives even if the subsequent model load
raises); the model itself is added to `self.models` only on success. -/
def load_base_model (s : AwsService) (bm : String) (o : AwsOutcomes) :
    List AwsEffect × AwsService × Except PyErr Unit :=
  if bm ∈ s.tokenizers then
    if o.loadOk then
      ([.loadBaseModel bm], { s with models := s.models ++ [bm] }, .ok ())
    else
      ([.loadBaseModel bm], s, .error (.raised (strT "model load failed")))
  else
    if o.tokenizerOk then
      let s1 : AwsService := { s with tokenizers := s.tokenizers ++ [bm] }
      if o.loadOk then
        ([.loadTokenizer bm, .loadBaseModel bm],
         { s1 with models := s1.models ++ [bm] }, .ok ())
      else
        ([.loadTokenizer bm, .loadBaseModel bm], s1,
         .error (.raised (strT "model load failed")))
    else
      ([.loadTokenizer bm], s, .error (.raised (strT "tokenizer load failed")))

/-- The `if base_model not in self.models: self.load_base_model(base_model)`
guard at the start of the model stage of `fine_tune`. -/
def maybeLoadModel (s : AwsService) (bm : String) (o : AwsOutcomes) :
    List AwsEffect × AwsService × Except PyErr Unit :=
  if bm ∈ s.models then ([], s, .ok ()) else load_base_model s bm o

/-- Result of the `try` block of `fine_tune` (dataset download through model
upload): effects, the service state after any model/tokenizer loads, the
adapter URL or the exception that aborted the block, and whether a temporary
zip file is left behind. -/
structure TryOut where
  effects : List AwsEffect
  state : AwsService
  result : Except PyErr String
  zipLeft : Bool
  deriving Repr

/-- The body of the `try` block of `fine_tune`: download the dataset, load the
base model if absent, look up the tokenizer (a `KeyError` if it is missing
from `self.tokenizers`), process the dataset, train, and upload the adapter.
Any failure aborts the block with the corresponding exception. -/
def fineTuneTryBody (s : AwsService) (job : JobData) (o : AwsOutcomes) : TryOut :=
  if ¬ o.downloadOk then
    { effects := [.downloadDataset job.dataset_id, .logError], state := s,
      result := .error (.raised (strT "dataset download failed")), zipLeft := false }
  else
    let lr := maybeLoadModel s job.base_model o
    match lr.2.2 with
    | .error e =>
        { effects := .downloadDataset job.dataset_id :: lr.1, state := lr.2.1,
          result := .error e, zipLeft := false }
    | .ok _ =>
        let s1 := lr.2.1
        if job.base_model ∈ s1.tokenizers then
          if ¬ o.processOk then
            { effects := .downloadDataset job.dataset_id :: lr.1, state := s1,
              result := .error (.raised (strT "dataset processing failed")),
              zipLeft := false }
          else if ¬ o.trainOk then
            { effects := .downloadDataset job.dataset_id :: lr.1 ++ [.train job.model_id],
              state := s1,
              result := .error (.raised (strT "training failed")), zipLeft := false }
          else
            let up := CloudflareClient.upload_model job.model_id o.uploadOk
            { effects := .downloadDataset job.dataset_id :: lr.1
                ++ [.train job.model_id] ++ up.effects,
              state := s1, result := up.result, zipLeft := up.zipLeft }
        else
          { effects := .downloadDataset job.dataset_id :: lr.1, state := s1,
            result := .error (.raised (strT "KeyError")), zipLeft := false }

/-- Result of a whole `fine_tune` call. -/
structure FTResult where
  effects : List AwsEffect
  ret : Except PyErr Bool
  state : AwsService
  zipLeft : Bool
  deriving Repr

/-- FineTuningService.fine_tune.  Field extraction succeeds (the job body is a
record); then `self.cf_client` is read — unbound for constructor-built
objects, raising `AttributeError` before any backend call and, crucially,
before the `try`/`finally`, so the `finally` reset never runs on that path.
With the attribute bound: mark job running (with `started_at`) and model
training, run the `try` body, on success mark completed (with `completed_at`)
and ready, on exception log and mark both failed (no `completed_at`), and in
`finally` call `reset_model(base_model)`, which deletes the `self.models`
entry but leaves `self.tokenizers` untouched. -/
def fineTune (s : AwsService) (job : JobData) (o : AwsOutcomes) (t0 : Nat) : FTResult :=
  match s.cf_client with
  | none => { effects := [], ret := .error .attributeError, state := s, zipLeft := false }
  | some _ =>
      let started_at := t0
      let pre : List AwsEffect :=
        [.updateJobStatus job.job_id .running (some started_at) none,
         .updateModelStatus job.model_id .training none]
      let tb := fineTuneTryBody s job o
      match tb.result with
      | .ok adapter_url =>
          let completed_at := t0 + 1
          { effects := pre ++ tb.effects ++
              [.updateJobStatus job.job_id .completed none (some completed_at),
               .updateModelStatus job.model_id .ready (some adapter_url),
               .resetModel job.base_model],
            ret := .ok true,
            state := { tb.state with models := tb.state.models.erase job.base_model },
            zipLeft := tb.zipLeft }
      | .error _ =>
          { effects := pre ++ tb.effects ++
              [.logError,
               .updateJobStatus job.job_id .failed none none,
               .updateModelStatus job.model_id .failed none,
               .resetModel job.base_model],
            ret := .ok false,
            state := { tb.state with models := tb.state.models.erase job.base_model },
            zipLeft := tb.zipLeft }

/-- One iteration of the polling loop of `run`, up to the `except` handler:
the `self.cf_client` attribute read raises `AttributeError` when unbound; a
failed `get_next_job` is caught inside the client and treated as "no job";
otherwise the first message is processed and, only when `fine_tune` returned
`True`, `delete_job` is issued (the message leaves the queue only if the
delete itself succeeded). -/
def runIterationBody (s : AwsService) (queue : List QueueMsg) (o : AwsOutcomes) (t0 : Nat) :
    List AwsEffect × Except PyErr (AwsService × List QueueMsg) :=
  match s.cf_client with
  | none => ([], .error .attributeError)
  | some _ =>
      if ¬ o.getJobOk then
        ([.getNextJob, .logError], .ok (s, queue))
      else
        match queue with
        | [] => ([.getNextJob], .ok (s, queue))
        | m :: rest =>
            let ft := fineTune s m.body o t0
            match ft.ret with
            | .ok true =>
                (.getNextJob :: ft.effects ++ [.deleteJob m.msg_id],
                 .ok (ft.state, if o.deleteOk then rest else m :: rest))
            | .ok false =>
                (.getNextJob :: ft.effects, .ok (ft.state, m :: rest))
            | .error e =>
                (.getNextJob :: ft.effects, .error e)

/-- Result of one full poll iteration of `run`. -/
structure IterOut where
  effects : List AwsEffect
  state : AwsService
  queue : List QueueMsg
  deriving Repr

/-- One full poll iteration of `run`: the loop body wrapped in the
`except Exception` handler (which logs and continues with unchanged state)
followed by `time.sleep(poll_interval)`. -/
def runIteration (s : AwsService) (queue : List QueueMsg) (o : AwsOutcomes) (t0 : Nat) :
    IterOut :=
  let r := runIterationBody s queue o t0
  match r.2 with
  | .ok sq => { effects := r.1 ++ [.sleep], state := sq.1, queue := sq.2 }
  | .error _ => { effects := r.1 ++ [.logError, .sleep], state := s, queue := queue }

/-- Iterating the polling loop `n` times. -/
def runN (o : AwsOutcomes) (t0 : Nat) : Nat → AwsService → List QueueMsg →
    AwsService × List QueueMsg
  | 0, s, q => (s, q)
  | n + 1, s, q =>
      let it := runIteration s q o t0
      runN o t0 n it.state it.queue

/-- Extract the job-status writes (status, started_at, completed_at) from an
effect trace, in order. -/
def jobWriteOf : AwsEffect → Option (Status × Option Nat × Option Nat)
  | .updateJobStatus _ st sa ca => some (st, sa, ca)
  | _ => none

/-- The job-status writes of a trace. -/
def jobWrites (effs : List AwsEffect) : List (Status × Option Nat × Option Nat) :=
  effs.filterMap jobWriteOf

/-- Extract the model-status writes (status, adapter url) from a trace. -/
def modelWriteOf : AwsEffect → Option (Status × Option String)
  | .updateModelStatus _ st u => some (st, u)
  | _ => none

/-- The model-status writes of a trace. -/
def modelWrites (effs : List AwsEffect) : List (Status × Option String) :=
  effs.filterMap modelWriteOf

/-- Recognizer for queue-acknowledgment (`delete_job`) effects. -/
def isDeleteJob : AwsEffect → Bool
  | .deleteJob _ => true
  | _ => false

/-- Recognizer for `reset_model` invocations. -/
def isReset : AwsEffect → Bool
  | .resetModel _ => true
  | _ => false

/-- Recognizer for `os.remove` of the temporary zip. -/
def isRemoveZip : AwsEffect → Bool
  | .removeZip _ => true
  | _ => false

/-- Recognizer for D1 query submissions. -/
def isD1Query : AwsEffect → Bool
  | .d1Query => true
  | _ => false

/-- Effects belonging to the orchestration layer (status writes, queue
acknowledgment, slot release) as opposed to the stage pipeline; the `try`
body of `fine_tune` issues none of these. -/
def isOrchestration : AwsEffect → Bool
  | .updateJobStatus _ _ _ _ => true
  | .updateModelStatus _ _ _ => true
  | .deleteJob _ => true
  | .resetModel _ => true
  | _ => false

/-! ## Tag machinery of the model-hub variants
(src/runpod/finetuning_service_unsloth.py and src/runpod/error_handler.py) -/

/-- A status tag `status:<value>` on a model card. -/
def statusTag (st : Status) : Chars := statusKey ++ strT (statusName st)

/-- An error tag `error_details:<msg>`. -/
def errorDetailsTag (msg : Chars) : Chars := errKey ++ msg

/-- A `started_at:<timestamp>` tag. -/
def startedAtTag (t : Nat) : Chars := strT "started_at:" ++ strT (toString t)

/-- A `started_training_at:<timestamp>` tag. -/
def startedTrainingAtTag (t : Nat) : Chars := strT "started_training_at:" ++ strT (toString t)

/-- A `completed_at:<timestamp>` tag. -/
def completedAtTag (t : Nat) : Chars := strT "completed_at:" ++ strT (toString t)

/-- The tag filter the unsloth `run` applies before each status update:
`[tag for tag in card.data.tags if not tag.startswith("status:")]` — only
`status:*` tags are removed (a `None` tag list is replaced by `[]`, which
coincides with filtering the empty list). -/
def removeStatusTags (tags : List Chars) : List Chars :=
  tags.filter (fun t => ! isPre statusKey t)

/-- The tag list the unsloth `run` pushes from its `except` handler: prior
`status:*` tags removed (but `error_details:*` tags kept), then
`status:failed`, `error_details:<str(e)>` (untruncated) and a fresh
`completed_at` appended. -/
def unslothFailTags (tags : List Chars) (msg : Chars) (t : Nat) : List Chars :=
  removeStatusTags tags ++ [statusTag .failed, errorDetailsTag msg, completedAtTag t]

/-- The tag filter of error_handler.update_model_status: removes both
`status:*` and `error_details:*` tags. -/
def removeStatusAndErrorTags (tags : List Chars) : List Chars :=
  tags.filter (fun t => ! isPre statusKey t && ! isPre errKey t)

/-- The tag-list transformation of error_handler.update_model_status: strip
all prior `status:*`/`error_details:*` tags, append the new status tag, the
`error_details:<msg[:100]>` tag when a message is supplied (truncated to 100
characters), and a `completed_at` timestamp when the new status is failed. -/
def update_model_status_tags (tags : List Chars) (st : Status) (msg : Option Chars)
    (t : Nat) : List Chars :=
  let base := removeStatusAndErrorTags tags
  let withStatus := base ++ [statusTag st]
  let withErr :=
    match msg with
    | some m => withStatus ++ [errorDetailsTag (m.take 100)]
    | none => withStatus
  if st = .failed then withErr ++ [completedAtTag t] else withErr

/-! ## The unsloth model-hub variant (src/runpod/finetuning_service_unsloth.py) -/

/-- The mutable state of the unsloth `FineTuningService`: `self.model` and
`self.tokenizer`, holding the name of the loaded base model when occupied. -/
structure UnslothService where
  model : Option String
  tokenizer : Option String
  deriving DecidableEq, Repr

/-- Outcome oracle for the unsloth `run`: for each fallible external call,
`none` means success and `some msg` means the call raised an exception whose
`str(e)` is `msg`.  `metadataNonempty`, `datasets` and `base_model` describe
the loaded model card's metadata. -/
structure UOutcomes where
  loadCard : Option Chars
  metadataNonempty : Bool
  datasets : Option (List String)
  base_model : Option String
  push1 : Option Chars
  loadModel : Option Chars
  loadDataset : Option Chars
  peft : Option Chars
  push2 : Option Chars
  train : Option Chars
  upload : Option Chars
  push3 : Option Chars
  pushFail : Option Chars
  deriving Repr

/-- Observable calls of the unsloth `run`; `pushCard` records the full tag
list of the card at the moment `push_to_hub` is issued. -/
inductive UEffect
  | loadCard
  | pushCard (tags : List Chars)
  | loadBaseModel (bm : String)
  | loadDataset (d : String)
  | train
  | uploadFolder
  | resetModel (bm : String)
  | logError
  deriving DecidableEq, Repr

/-- Result of one unsloth `run` call. -/
structure URunOut where
  effects : List UEffect
  ret : Except PyErr Bool
  state : UnslothService
  deriving Repr

/-- Python truthiness of an optional string (`None` and `""` are falsy). -/
def pyTruthy (o : Option String) : Bool :=
  match o with
  | none => false
  | some s => s != ""

/-- The `except Exception` handler of the unsloth `run`, reachable only when
the local `card` is bound: log, strip `status:*` tags from the current tag
list, append failed/error/completed tags, and push; a push failure makes the
handler itself raise. -/
def unslothExcept (effs : List UEffect) (tagsCur : List Chars) (msg : Chars)
    (t : Nat) (o : UOutcomes) : List UEffect × Except PyErr Bool :=
  let ftags := unslothFailTags tagsCur msg t
  match o.pushFail with
  | none => (effs ++ [.logError, .pushCard ftags], .ok false)
  | some m => (effs ++ [.logError, .pushCard ftags], .error (.raised m))

/-- The `finally` block of the unsloth `run`: `if base_model:` — referencing
the local raises `UnboundLocalError` when it was never assigned (superseding
any pending return value or exception); when bound and truthy, `reset_model`
clears `self.model` (the tokenizer is untouched). -/
def unslothFinally (effs : List UEffect) (pending : Except PyErr Bool)
    (bmLocal : Option (Option String)) (s : UnslothService) : URunOut :=
  match bmLocal with
  | none => { effects := effs, ret := .error .unboundLocalError, state := s }
  | some bm =>
      if pyTruthy bm then
        { effects := effs ++ [.resetModel (bm.getD "")], ret := pending,
          state := { s with model := none } }
      else
        { effects := effs, ret := pending, state := s }

/-- FineTuningService.run of the unsloth variant.  `ModelCard.load` failing
leaves both `card` and `base_model` unbound (the handler's `card.data.tags`
raises `NameError`, then the `finally` raises `UnboundLocalError`); an empty
metadata card returns `False` inside the `try` but the `finally` again finds
`base_model` unbound; `get("datasets")[0]` on a missing or empty list raises
with `card` bound but `base_model` still unbound.  After `base_model` is
bound, each stage failure lands in the `except` handler with the card's tag
list as last mutated, and the `finally` releases the model slot.  Successive
`get_utc_time()` reads are `t0`, `t0+1`, … along each path. -/
def unslothRun (s : UnslothService) (card0 : List Chars) (o : UOutcomes) (t0 : Nat) :
    URunOut :=
  match o.loadCard with
  | some _ => unslothFinally [.loadCard, .logError] (.error .nameError) none s
  | none =>
      if ¬ o.metadataNonempty then
        unslothFinally [.loadCard] (.ok false) none s
      else
        match o.datasets with
        | none =>
            let er := unslothExcept [.loadCard] card0 (strT "TypeError") t0 o
            unslothFinally er.1 er.2 none s
        | some [] =>
            let er := unslothExcept [.loadCard] card0 (strT "IndexError") t0 o
            unslothFinally er.1 er.2 none s
        | some (d0 :: _) =>
            let bm := o.base_model
            if ¬ (d0 != "" && pyTruthy bm) then
              unslothFinally [.loadCard] (.ok false) (some bm) s
            else
              let bms := bm.getD ""
              let tags1 := removeStatusTags card0 ++
                [statusTag .loading_model, startedAtTag t0]
              match o.push1 with
              | some m =>
                  let er := unslothExcept [.loadCard, .pushCard tags1] tags1 m (t0 + 1) o
                  unslothFinally er.1 er.2 (some bm) s
              | none =>
                  let lm : List UEffect × UnslothService × Except PyErr Unit :=
                    match s.model with
                    | some _ => ([], s, .ok ())
                    | none =>
                        match o.loadModel with
                        | none =>
                            ([.loadBaseModel bms],
                             { s with model := some bms, tokenizer := some bms }, .ok ())
                        | some m => ([.loadBaseModel bms], s, .error (.raised m))
                  let e1 := [UEffect.loadCard, UEffect.pushCard tags1] ++ lm.1
                  match lm.2.2 with
                  | .error e =>
                      let er := unslothExcept e1 tags1 e.msg (t0 + 1) o
                      unslothFinally er.1 er.2 (some bm) lm.2.1
                  | .ok _ =>
                      let s1 := lm.2.1
                      match o.loadDataset with
                      | some m =>
                          let er := unslothExcept (e1 ++ [.loadDataset d0]) tags1 m (t0 + 1) o
                          unslothFinally er.1 er.2 (some bm) s1
                      | none =>
                          match o.peft with
                          | some m =>
                              let er := unslothExcept (e1 ++ [.loadDataset d0]) tags1 m
                                (t0 + 1) o
                              unslothFinally er.1 er.2 (some bm) s1
                          | none =>
                              let tags2 := removeStatusTags tags1 ++
                                [statusTag .training, startedTrainingAtTag (t0 + 1)]
                              let e2 := e1 ++ [UEffect.loadDataset d0]
                              match o.push2 with
                              | some m =>
                                  let er := unslothExcept (e2 ++ [.pushCard tags2]) tags2 m
                                    (t0 + 2) o
                                  unslothFinally er.1 er.2 (some bm) s1
                              | none =>
                                  match o.train with
                                  | some m =>
                                      let er := unslothExcept
                                        (e2 ++ [.pushCard tags2, .train]) tags2 m (t0 + 2) o
                                      unslothFinally er.1 er.2 (some bm) s1
                                  | none =>
                                      match o.upload with
                                      | some m =>
                                          let er := unslothExcept
                                            (e2 ++ [.pushCard tags2, .train, .uploadFolder])
                                            tags2 m (t0 + 2) o
                                          unslothFinally er.1 er.2 (some bm) s1
                                      | none =>
                                          let tags3 := removeStatusTags tags2 ++
                                            [statusTag .completed, completedAtTag (t0 + 2)]
                                          let e3 := e2 ++
                                            [UEffect.pushCard tags2, UEffect.train,
                                             UEffect.uploadFolder]
                                          match o.push3 with
                                          | some m =>
                                              let er := unslothExcept
                                                (e3 ++ [.pushCard tags3]) tags3 m (t0 + 3) o
                                              unslothFinally er.1 er.2 (some bm) s1
                                          | none =>
                                              unslothFinally (e3 ++ [.pushCard tags3])
                                                (.ok true) (some bm) s1

/-- The tag lists carried by the `push_to_hub` calls of a trace, in order. -/
def pushedTagLists (effs : List UEffect) : List (List Chars) :=
  effs.filterMap fun e =>
    match e with
    | .pushCard t => some t
    | _ => none

/-- The `status:*` tags present in one tag list. -/
def statusTagsOf (tags : List Chars) : List Chars :=
  tags.filter (fun t => isPre statusKey t)

/-- The sequence of `status:*` tags carried by the successive pushes of a
trace — the externally observed status history of the model card. -/
def pushedStatuses (effs : List UEffect) : List Chars :=
  ((pushedTagLists effs).map statusTagsOf).flatten

/-- The status chain `pending, running, completed` of the claim, as tags. -/
def chainCompletedTags : List Chars :=
  [statusTag .pending, statusTag .running, statusTag .completed]

/-- The status chain `pending, running, failed` of the claim, as tags. -/
def chainFailedTags : List Chars :=
  [statusTag .pending, statusTag .running, statusTag .failed]

/-! ## The single-job model-hub variant (src/runpod/finetuning_service.py) -/

/-- The mutable state of the single-job hub `FineTuningService`. -/
structure HubService where
  model : Option String
  tokenizer : Option String
  deriving DecidableEq, Repr

/-- Outcome oracle for the single-job hub `fine_tune`: `none` is success,
`some msg` a raised exception.  Here `model_metadata.get("datasets")` is used
directly (no `[0]` indexing), so `dataset_id` is an optional string. -/
structure HOutcomes where
  modelInfo : Option Chars
  metadataNonempty : Bool
  dataset_id : Option String
  base_model : Option String
  markRunning : Option Chars
  download : Option Chars
  loadModel : Option Chars
  process : Option Chars
  train : Option Chars
  upload : Option Chars
  uploadAdapter : Option Chars
  markCompleted : Option Chars
  markFailed : Option Chars
  deriving Repr

/-- Observable calls of the single-job hub `fine_tune`; `metadataUpdate`
records the status written plus which optional fields were supplied. -/
inductive HEffect
  | modelInfo
  | metadataUpdate (st : Status) (err : Option Chars)
      (hasStartedAt : Bool) (hasCompletedAt : Bool)
  | download
  | loadModel
  | train
  | uploadFolder
  | createRepo
  | uploadAdapterFolder
  | resetModel (bm : String)
  | logError
  deriving DecidableEq, Repr

/-- Result of one single-job hub `fine_tune` call. -/
structure HRunOut where
  effects : List HEffect
  ret : Except PyErr Bool
  state : HubService
  deriving Repr

/-- The `except Exception` handler of the hub `fine_tune`: log, then
`metadata_update` with status failed, the raw `str(e)` and a `completed_at`;
a failing update makes the handler itself raise. -/
def hubExcept (effs : List HEffect) (e : PyErr) (o : HOutcomes) :
    List HEffect × Except PyErr Bool :=
  match o.markFailed with
  | none => (effs ++ [.logError, .metadataUpdate .failed (some e.msg) false true], .ok false)
  | some m => (effs ++ [.logError, .metadataUpdate .failed (some e.msg) false true],
               .error (.raised m))

/-- The `finally` block of the hub `fine_tune`, identical in shape to the
unsloth one: `if base_model:` raises `UnboundLocalError` when the local is
unbound, otherwise releases the model slot when truthy. -/
def hubFinally (effs : List HEffect) (pending : Except PyErr Bool)
    (bmLocal : Option (Option String)) (s : HubService) : HRunOut :=
  match bmLocal with
  | none => { effects := effs, ret := .error .unboundLocalError, state := s }
  | some bm =>
      if pyTruthy bm then
        { effects := effs ++ [.resetModel (bm.getD "")], ret := pending,
          state := { s with model := none } }
      else
        { effects := effs, ret := pending, state := s }

/-- FineTuningService.fine_tune of the single-job hub variant.  A failing
`model_info` lands in the handler (which writes a failed update) but the
`finally` still raises `UnboundLocalError` because `base_model` was never
assigned; empty metadata returns `False` inside the `try` with the same
`finally` fate and no status written at all; a falsy `dataset_id`/`base_model`
returns `False` with `base_model` bound, so the `finally` behaves normally.
The remaining pipeline mirrors the source: mark running (with `started_at`),
download, load model if absent, process, train, upload artifacts and adapter
(`create_repo` catches its own errors), mark completed (with `completed_at`). -/
def hubFineTune (s : HubService) (o : HOutcomes) (_t0 : Nat) : HRunOut :=
  match o.modelInfo with
  | some m =>
      let er := hubExcept [.modelInfo] (.raised m) o
      hubFinally er.1 er.2 none s
  | none =>
      if ¬ o.metadataNonempty then
        hubFinally [.modelInfo] (.ok false) none s
      else
        let bm := o.base_model
        if ¬ (pyTruthy o.dataset_id && pyTruthy bm) then
          hubFinally [.modelInfo] (.ok false) (some bm) s
        else
          let bms := bm.getD ""
          let eMark := [HEffect.modelInfo, HEffect.metadataUpdate .running none true false]
          match o.markRunning with
          | some m =>
              let er := hubExcept eMark (.raised m) o
              hubFinally er.1 er.2 (some bm) s
          | none =>
              match o.download with
              | some m =>
                  let er := hubExcept (eMark ++ [.download]) (.raised m) o
                  hubFinally er.1 er.2 (some bm) s
              | none =>
                  let lm : List HEffect × HubService × Except PyErr Unit :=
                    match s.model with
                    | some _ => ([], s, .ok ())
                    | none =>
                        match o.loadModel with
                        | none =>
                            ([.loadModel],
                             { s with model := some bms, tokenizer := some bms }, .ok ())
                        | some m => ([.loadModel], s, .error (.raised m))
                  let e1 := eMark ++ [HEffect.download] ++ lm.1
                  match lm.2.2 with
                  | .error e =>
                      let er := hubExcept e1 e o
                      hubFinally er.1 er.2 (some bm) lm.2.1
                  | .ok _ =>
                      let s1 := lm.2.1
                      match o.process with
                      | some m =>
                          let er := hubExcept e1 (.raised m) o
                          hubFinally er.1 er.2 (some bm) s1
                      | none =>
                          match o.train with
                          | some m =>
                              let er := hubExcept (e1 ++ [.train]) (.raised m) o
                              hubFinally er.1 er.2 (some bm) s1
                          | none =>
                              match o.upload with
                              | some m =>
                                  let er := hubExcept (e1 ++ [.train, .uploadFolder])
                                    (.raised m) o
                                  hubFinally er.1 er.2 (some bm) s1
                              | none =>
                                  let e2 := e1 ++
                                    [HEffect.train, HEffect.uploadFolder, HEffect.createRepo]
                                  match o.uploadAdapter with
                                  | some m =>
                                      let er := hubExcept (e2 ++ [.uploadAdapterFolder])
                                        (.raised m) o
                                      hubFinally er.1 er.2 (some bm) s1
                                  | none =>
                                      match o.markCompleted with
                                      | some m =>
                                          let er := hubExcept
                                            (e2 ++ [.uploadAdapterFolder,
                                              .metadataUpdate .completed none false true])
                                            (.raised m) o
                                          hubFinally er.1 er.2 (some bm) s1
                                      | none =>
                                          hubFinally
                                            (e2 ++ [.uploadAdapterFolder,
                                              .metadataUpdate .completed none false true])
                                            (.ok true) (some bm) s1

/-- The status writes issued through `metadata_update` in a hub trace. -/
def hubStatusWrites (effs : List HEffect) : List Status :=
  effs.filterMap fun e =>
    match e with
    | .metadataUpdate st _ _ _ => some st
    | _ => none

/-! ## Concrete fixtures for witnesses and counterexamples -/

/-- A concrete job (Scenario A of the specification). -/
def jobEx : JobData :=
  { job_id := "j1", model_id := "m1", dataset_id := "d1", base_model := "base-7b" }

/-- The job wrapped in a queue message. -/
def msgEx : QueueMsg := { body := jobEx, msg_id := "qm-1" }

/-- Oracle in which every external call of the queue/SQL variant succeeds. -/
def oAllOk : AwsOutcomes :=
  { getJobOk := true, deleteOk := true, downloadOk := true, tokenizerOk := true,
    loadOk := true, processOk := true, trainOk := true, uploadOk := true }

/-- Oracle in which the dataset download fails and everything else succeeds. -/
def oFailDownload : AwsOutcomes :=
  { oAllOk with downloadOk := false }

/-- Fresh unsloth service state (nothing loaded). -/
def uInit : UnslothService := { model := none, tokenizer := none }

/-- Unsloth oracle in which every external call succeeds, on a card whose
metadata names a dataset and a base model. -/
def oUAllOk : UOutcomes :=
  { loadCard := none, metadataNonempty := true, datasets := some ["d1"],
    base_model := some "base-7b", push1 := none, loadModel := none,
    loadDataset := none, peft := none, push2 := none, train := none,
    upload := none, push3 := none, pushFail := none }

/-- Unsloth oracle: the whole pipeline succeeds but the final
`status:completed` push raises. -/
def oUPushFail : UOutcomes :=
  { oUAllOk with push3 := some (strT "502 server error") }

/-- Unsloth oracle: the base-model load raises out-of-memory. -/
def oUOom : UOutcomes :=
  { oUAllOk with loadModel := some (strT "CUDA out of memory") }

/-- Unsloth oracle: training raises with a 150-character message. -/
def oULongErr : UOutcomes :=
  { oUAllOk with train := some (List.replicate 150 'a') }

/-- Unsloth oracle: `ModelCard.load` itself raises. -/
def oUNoCard : UOutcomes :=
  { oUAllOk with loadCard := some (strT "404 not found") }

/-- Unsloth oracle: the card loads but carries no metadata. -/
def oUNoMeta : UOutcomes :=
  { oUAllOk with metadataNonempty := false }

/-- A card that already carries an `error_details:*` tag from an earlier
failed attempt. -/
def cardWithOldError : List Chars :=
  [errorDetailsTag (strT "previous attempt failed")]

/-- Fresh hub service state. -/
def hInit : HubService := { model := none, tokenizer := none }

/-- Hub oracle in which every external call succeeds. -/
def oHAllOk : HOutcomes :=
  { modelInfo := none, metadataNonempty := true, dataset_id := some "d1",
    base_model := some "base-7b", markRunning := none, download := none,
    loadModel := none, process := none, train := none, upload := none,
    uploadAdapter := none, markCompleted := none, markFailed := none }

/-- Hub oracle: `hf_api.model_info` raises. -/
def oHNoInfo : HOutcomes :=
  { oHAllOk with modelInfo := some (strT "404 not found") }

/-- Hub oracle: the metadata card is empty. -/
def oHNoMeta : HOutcomes :=
  { oHAllOk with metadataNonempty := false }

/-! ## Helper lemmas -/

/-- Explicit character list of the `status:` key. -/
lemma statusKey_chars : statusKey = ['s', 't', 'a', 't', 'u', 's', ':'] := rfl

/-- Explicit character list of the `error_details:` key. -/
lemma errKey_chars :
    errKey = ['e', 'r', 'r', 'o', 'r', '_', 'd', 'e', 't', 'a', 'i', 'l', 's', ':'] := rfl

/-- A list is a `startswith`-prefix of itself followed by anything. -/
lemma isPre_self_append (p r : Chars) : isPre p (p ++ r) = true := by
  induction p with
  | nil => simp [isPre]
  | cons a as ih => simp [isPre, ih]

/-- Every `status:<v>` tag starts with `status:`. -/
lemma isPre_statusKey_statusTag (st : Status) : isPre statusKey (statusTag st) = true := by
  cases st <;> rfl

/-- No `error_details:<m>` tag starts with `status:`. -/
lemma isPre_statusKey_errTag (m : Chars) :
    isPre statusKey (errorDetailsTag m) = false := rfl

/-- No `completed_at:<t>` tag starts with `status:`. -/
lemma isPre_statusKey_completedAt (t : Nat) :
    isPre statusKey (completedAtTag t) = false := rfl

/-- No `started_at:<t>` tag starts with `status:`. -/
lemma isPre_statusKey_startedAt (t : Nat) :
    isPre statusKey (startedAtTag t) = false := rfl

/-- No `started_training_at:<t>` tag starts with `status:`. -/
lemma isPre_statusKey_startedTrainingAt (t : Nat) :
    isPre statusKey (startedTrainingAtTag t) = false := rfl

/-- No `status:<v>` tag starts with `error_details:`. -/
lemma isPre_errKey_statusTag (st : Status) : isPre errKey (statusTag st) = false := by
  cases st <;> rfl

/-- Every `error_details:<m>` tag starts with `error_details:`. -/
lemma isPre_errKey_errTag (m : Chars) : isPre errKey (errorDetailsTag m) = true :=
  isPre_self_append errKey m

/-- No `completed_at:<t>` tag starts with `error_details:`. -/
lemma isPre_errKey_completedAt (t : Nat) :
    isPre errKey (completedAtTag t) = false := rfl

/-- A tag starting with `error_details:` cannot also start with `status:`. -/
lemma err_not_status (a : Chars) (h : isPre errKey a = true) :
    isPre statusKey a = false := by
  cases a with
  | nil =>
      rw [show isPre errKey [] = false from rfl] at h
      exact absurd h (by decide)
  | cons c r =>
      rw [errKey_chars] at h
      simp only [isPre, Bool.and_eq_true, beq_iff_eq] at h
      obtain ⟨hc, -⟩ := h
      subst hc
      rfl

/-- Counting a predicate over a filter that excludes it yields zero. -/
lemma countP_zero_of_excluded (p q : Chars → Bool) (l : List Chars)
    (h : ∀ a, q a = true → p a = false) : (l.filter q).countP p = 0 := by
  induction l with
  | nil => rfl
  | cons a l ih =>
      by_cases hq : q a = true
      · have hp := h a hq
        simp [List.filter_cons, hq, List.countP_cons, hp, ih]
      · simp [List.filter_cons, Bool.eq_false_iff.mpr hq, ih]

/-- Counting a predicate over a filter that keeps all its witnesses is the
same as counting over the original list. -/
lemma countP_filter_keep (p q : Chars → Bool) (l : List Chars)
    (h : ∀ a, p a = true → q a = true) : (l.filter q).countP p = l.countP p := by
  induction l with
  | nil => rfl
  | cons a l ih =>
      by_cases hq : q a = true
      · simp [List.filter_cons, hq, List.countP_cons, ih]
      · have hp : p a = false := by
          cases hpa : p a
          · rfl
          · exact absurd (h a hpa) hq
        simp [List.filter_cons, Bool.eq_false_iff.mpr hq, List.countP_cons, hp, ih]

/-- The status-tag filter leaves no `status:*` tag behind. -/
lemma removeStatusTags_status_count (tags : List Chars) :
    (removeStatusTags tags).countP (fun x => isPre statusKey x) = 0 := by
  unfold removeStatusTags
  exact countP_zero_of_excluded _ _ tags (fun a ha => by simpa using ha)

/-- The status-tag filter preserves all `error_details:*` tags. -/
lemma removeStatusTags_err_count (tags : List Chars) :
    (removeStatusTags tags).countP (fun x => isPre errKey x) =
      tags.countP (fun x => isPre errKey x) := by
  unfold removeStatusTags
  exact countP_filter_keep _ _ tags (fun a ha => by simp [err_not_status a ha])

/-- The combined status/error filter of the error handler leaves no
`status:*` tag behind. -/
lemma removeStatusAndErrorTags_status_count (tags : List Chars) :
    (removeStatusAndErrorTags tags).countP (fun x => isPre statusKey x) = 0 := by
  unfold removeStatusAndErrorTags
  refine countP_zero_of_excluded _ _ tags (fun a ha => ?_)
  simp only [Bool.and_eq_true, Bool.not_eq_true'] at ha
  exact ha.1

/-- The combined status/error filter of the error handler leaves no
`error_details:*` tag behind. -/
lemma removeStatusAndErrorTags_err_count (tags : List Chars) :
    (removeStatusAndErrorTags tags).countP (fun x => isPre errKey x) = 0 := by
  unfold removeStatusAndErrorTags
  refine countP_zero_of_excluded _ _ tags (fun a ha => ?_)
  simp only [Bool.and_eq_true, Bool.not_eq_true'] at ha
  exact ha.2

/-- Orchestration effects are exactly those excluded by the `try` body. -/
lemma orch_false_all (e : AwsEffect) (h : isOrchestration e = false) :
    jobWriteOf e = none ∧ modelWriteOf e = none ∧
    isDeleteJob e = false ∧ isReset e = false := by
  cases e <;> simp_all [isOrchestration, jobWriteOf, modelWriteOf, isDeleteJob, isReset]

/-- A trace free of orchestration effects has no status writes, no queue
acknowledgments, and no slot releases. -/
lemma clean_effects {effs : List AwsEffect} (h : effs.countP isOrchestration = 0) :
    jobWrites effs = [] ∧ modelWrites effs = [] ∧
    effs.countP isDeleteJob = 0 ∧ effs.countP isReset = 0 := by
  have hall : ∀ e ∈ effs, isOrchestration e = false := by
    intro e he
    have := List.countP_eq_zero.mp h e he
    simpa using this
  refine ⟨?_, ?_, ?_, ?_⟩
  · exact List.filterMap_eq_nil_iff.mpr (fun e he => (orch_false_all e (hall e he)).1)
  · exact List.filterMap_eq_nil_iff.mpr (fun e he => (orch_false_all e (hall e he)).2.1)
  · exact List.countP_eq_zero.mpr
      (fun e he => by simp [(orch_false_all e (hall e he)).2.2.1])
  · exact List.countP_eq_zero.mpr
      (fun e he => by simp [(orch_false_all e (hall e he)).2.2.2])

/-- The effects issued by `load_base_model` are pipeline effects only. -/
lemma load_base_model_clean (s : AwsService) (bm : String) (o : AwsOutcomes) :
    (load_base_model s bm o).1.countP isOrchestration = 0 := by
  unfold load_base_model
  split <;> split <;> first
    | (split <;> simp [isOrchestration, List.countP_cons])
    | simp [isOrchestration, List.countP_cons]

/-- The effects issued by the maybe-load guard are pipeline effects only. -/
lemma maybeLoadModel_clean (s : AwsService) (bm : String) (o : AwsOutcomes) :
    (maybeLoadModel s bm o).1.countP isOrchestration = 0 := by
  unfold maybeLoadModel
  split
  · rfl
  · exact load_base_model_clean s bm o

/-- The effects issued by `upload_model` are pipeline effects only. -/
lemma upload_model_clean (m : String) (ok : Bool) :
    (CloudflareClient.upload_model m ok).effects.countP isOrchestration = 0 := by
  unfold CloudflareClient.upload_model
  split <;> simp [isOrchestration, List.countP_cons]

/-- The `try` body of `fine_tune` issues no orchestration effects. -/
lemma tryBody_clean (s : AwsService) (job : JobData) (o : AwsOutcomes) :
    (fineTuneTryBody s job o).effects.countP isOrchestration = 0 := by
  have hml := maybeLoadModel_clean s job.base_model o
  have hup := upload_model_clean job.model_id o.uploadOk
  unfold fineTuneTryBody
  dsimp only
  by_cases hd : ¬ o.downloadOk
  · rw [if_pos hd]
    simp [isOrchestration, List.countP_cons]
  · rw [if_neg hd]
    cases hm : (maybeLoadModel s job.base_model o).2.2 with
    | error e => simp [isOrchestration, List.countP_cons, hml]
    | ok u =>
        by_cases ht : job.base_model ∈ (maybeLoadModel s job.base_model o).2.1.tokenizers
        · rw [if_pos ht]
          by_cases hp : ¬ o.processOk
          · rw [if_pos hp]
            simp [isOrchestration, List.countP_cons, hml]
          · rw [if_neg hp]
            by_cases htr : ¬ o.trainOk
            · rw [if_pos htr]
              simp [isOrchestration, List.countP_cons, List.countP_append, hml]
            · rw [if_neg htr]
              simp [isOrchestration, List.countP_cons, List.countP_append, hml, hup]
        · rw [if_neg ht]
          simp [isOrchestration, List.countP_cons, hml]

/-- With a bound client, `fine_tune` returns `True` exactly when the `try`
body produced an adapter URL and `False` otherwise; it never raises. -/
lemma fineTune_ret_eq (s : AwsService) (job : JobData) (o : AwsOutcomes) (t0 : Nat)
    (h : s.cf_client = some ()) :
    (fineTune s job o t0).ret =
      .ok (match (fineTuneTryBody s job o).result with
           | .ok _ => true
           | .error _ => false) := by
  unfold fineTune
  rw [h]
  cases htb : (fineTuneTryBody s job o).result <;> simp [htb]

/-- Job-status writes of a successful `fine_tune`: running with `started_at`,
then completed with `completed_at`. -/
lemma fineTune_jobWrites_ok (s : AwsService) (job : JobData) (o : AwsOutcomes) (t0 : Nat)
    (url : String) (h : s.cf_client = some ())
    (htb : (fineTuneTryBody s job o).result = .ok url) :
    jobWrites (fineTune s job o t0).effects =
      [(Status.running, some t0, none), (Status.completed, none, some (t0 + 1))] := by
  have hc := (clean_effects (tryBody_clean s job o)).1
  unfold fineTune
  rw [h]
  simp [htb, jobWrites, jobWriteOf, List.filterMap_append]
  simpa [jobWrites] using hc

/-- Job-status writes of a failed `fine_tune`: running with `started_at`,
then failed with no `completed_at`. -/
lemma fineTune_jobWrites_err (s : AwsService) (job : JobData) (o : AwsOutcomes) (t0 : Nat)
    (e : PyErr) (h : s.cf_client = some ())
    (htb : (fineTuneTryBody s job o).result = .error e) :
    jobWrites (fineTune s job o t0).effects =
      [(Status.running, some t0, none), (Status.failed, none, none)] := by
  have hc := (clean_effects (tryBody_clean s job o)).1
  unfold fineTune
  rw [h]
  simp [htb, jobWrites, jobWriteOf, List.filterMap_append]
  simpa [jobWrites] using hc

/-- Model-status writes of a successful `fine_tune`: training, then ready
with the adapter URL. -/
lemma fineTune_modelWrites_ok (s : AwsService) (job : JobData) (o : AwsOutcomes) (t0 : Nat)
    (url : String) (h : s.cf_client = some ())
    (htb : (fineTuneTryBody s job o).result = .ok url) :
    modelWrites (fineTune s job o t0).effects =
      [(Status.training, none), (Status.ready, some url)] := by
  have hc := (clean_effects (tryBody_clean s job o)).2.1
  unfold fineTune
  rw [h]
  simp [htb, modelWrites, modelWriteOf, List.filterMap_append]
  simpa [modelWrites] using hc

/-- Model-status writes of a failed `fine_tune`: training, then failed. -/
lemma fineTune_modelWrites_err (s : AwsService) (job : JobData) (o : AwsOutcomes) (t0 : Nat)
    (e : PyErr) (h : s.cf_client = some ())
    (htb : (fineTuneTryBody s job o).result = .error e) :
    modelWrites (fineTune s job o t0).effects =
      [(Status.training, none), (Status.failed, none)] := by
  have hc := (clean_effects (tryBody_clean s job o)).2.1
  unfold fineTune
  rw [h]
  simp [htb, modelWrites, modelWriteOf, List.filterMap_append]
  simpa [modelWrites] using hc

/-- `fine_tune` never issues a queue acknowledgment itself. -/
lemma fineTune_deleteCount (s : AwsService) (job : JobData) (o : AwsOutcomes) (t0 : Nat)
    (h : s.cf_client = some ()) :
    (fineTune s job o t0).effects.countP isDeleteJob = 0 := by
  have hc := (clean_effects (tryBody_clean s job o)).2.2.1
  unfold fineTune
  rw [h]
  cases htb : (fineTuneTryBody s job o).result <;>
    simp [htb, List.countP_cons, List.countP_append, isDeleteJob, hc]

/-- With a bound client, `reset_model` is invoked exactly once per
`fine_tune` call. -/
lemma fineTune_resetCount (s : AwsService) (job : JobData) (o : AwsOutcomes) (t0 : Nat)
    (h : s.cf_client = some ()) :
    (fineTune s job o t0).effects.countP isReset = 1 := by
  have hc := (clean_effects (tryBody_clean s job o)).2.2.2
  unfold fineTune
  rw [h]
  cases htb : (fineTuneTryBody s job o).result <;>
    simp [htb, List.countP_cons, List.countP_append, isReset, hc]

/-- The models dictionary after `fine_tune` is the `try`-body one with the
job's base model erased by the `finally` reset. -/
lemma fineTune_state_models (s : AwsService) (job : JobData) (o : AwsOutcomes) (t0 : Nat)
    (h : s.cf_client = some ()) :
    (fineTune s job o t0).state.models =
      (fineTuneTryBody s job o).state.models.erase job.base_model := by
  unfold fineTune
  rw [h]
  cases htb : (fineTuneTryBody s job o).result <;> simp [htb]

/-- The tokenizers dictionary is untouched by the `finally` reset. -/
lemma fineTune_state_tokenizers (s : AwsService) (job : JobData) (o : AwsOutcomes)
    (t0 : Nat) (h : s.cf_client = some ()) :
    (fineTune s job o t0).state.tokenizers =
      (fineTuneTryBody s job o).state.tokenizers := by
  unfold fineTune
  rw [h]
  cases htb : (fineTuneTryBody s job o).result <;> simp [htb]

/-- The `try` body either leaves the models dictionary unchanged or extends
it with the (previously absent) base model of the job. -/
lemma tryBody_models (s : AwsService) (job : JobData) (o : AwsOutcomes) :
    (fineTuneTryBody s job o).state.models = s.models ∨
    (job.base_model ∉ s.models ∧
      (fineTuneTryBody s job o).state.models = s.models ++ [job.base_model]) := by
  have hload : (maybeLoadModel s job.base_model o).2.1.models = s.models ∨
      (job.base_model ∉ s.models ∧
        (maybeLoadModel s job.base_model o).2.1.models = s.models ++ [job.base_model]) := by
    unfold maybeLoadModel load_base_model
    by_cases hm : job.base_model ∈ s.models
    · rw [if_pos hm]
      exact Or.inl rfl
    · rw [if_neg hm]
      by_cases htk : job.base_model ∈ s.tokenizers
      · rw [if_pos htk]
        by_cases hl : o.loadOk
        · simp [hl, hm]
        · simp [hl]
      · rw [if_neg htk]
        by_cases hto : o.tokenizerOk
        · by_cases hl : o.loadOk
          · simp [hto, hl, hm]
          · simp [hto, hl]
        · simp [hto]
  unfold fineTuneTryBody
  dsimp only
  by_cases hd : ¬ o.downloadOk
  · rw [if_pos hd]
    exact Or.inl rfl
  · rw [if_neg hd]
    cases hm : (maybeLoadModel s job.base_model o).2.2 with
    | error e => simpa using hload
    | ok u =>
        by_cases ht : job.base_model ∈ (maybeLoadModel s job.base_model o).2.1.tokenizers
        · rw [if_pos ht]
          by_cases hp : ¬ o.processOk
          · rw [if_pos hp]
            simpa using hload
          · rw [if_neg hp]
            by_cases htr : ¬ o.trainOk
            · rw [if_pos htr]
              simpa using hload
            · rw [if_neg htr]
              simpa using hload
        · rw [if_neg ht]
          simpa using hload

/-- After `fine_tune` with a bound client, the models dictionary equals the
starting one with the job's base model erased. -/
lemma fineTune_models_erase (s : AwsService) (job : JobData) (o : AwsOutcomes) (t0 : Nat)
    (h : s.cf_client = some ()) :
    (fineTune s job o t0).state.models = s.models.erase job.base_model := by
  rw [fineTune_state_models s job o t0 h]
  rcases tryBody_models s job o with hm | ⟨hnm, hm⟩
  · rw [hm]
  · rw [hm, List.erase_append_right _ hnm, List.erase_of_not_mem hnm]
    simp

/-! ## Claims -/

/-- C1: in the queue-backed variant, the constructor stores the backend
client in `self.client` while `run` and `fine_tune` read the never-assigned
attribute `self.cf_client`, so every poll iteration raises `AttributeError`
before any backend call, the loop's handler catches and logs it, the worker
sleeps, and any number of iterations leaves the queue and service state
untouched — no job is ever fetched, processed, or status-marked. -/
theorem queue_worker_never_processes_jobs :
    awsInit.client = some () ∧ awsInit.cf_client = none ∧
    (∀ (q : List QueueMsg) (o : AwsOutcomes) (t0 : Nat),
        runIterationBody awsInit q o t0 = ([], .error .attributeError)) ∧
    (∀ (q : List QueueMsg) (o : AwsOutcomes) (t0 : Nat),
        runIteration awsInit q o t0 =
          { effects := [.logError, .sleep], state := awsInit, queue := q }) ∧
    (∀ (q : List QueueMsg) (o : AwsOutcomes) (t0 : Nat) (n : Nat),
        runN o t0 n awsInit q = (awsInit, q)) := by
  have hit : ∀ (q : List QueueMsg) (o : AwsOutcomes) (t0 : Nat),
      runIteration awsInit q o t0 =
        { effects := [.logError, .sleep], state := awsInit, queue := q } := by
    intro q o t0
    simp [runIteration, runIterationBody, awsInit]
  refine ⟨rfl, rfl, fun q o t0 => rfl, hit, fun q o t0 n => ?_⟩
  induction n with
  | zero => rfl
  | succ k ih =>
      simp only [runN, hit]
      exact ih

/-- C2: with the client attribute bound, one poll iteration acknowledges the
message via `delete_job` exactly once when `fine_tune` returns `True`, and
never when it returns `False` — in which case the message is still at the
head of the queue for redelivery; `fine_tune` always returns one of the two
booleans (no exception escapes it). -/
theorem ack_exactly_once_on_success (s : AwsService) (m : QueueMsg)
    (rest : List QueueMsg) (o : AwsOutcomes) (t0 : Nat)
    (h : s.cf_client = some ()) (hg : o.getJobOk = true) :
    ((fineTune s m.body o t0).ret = .ok true →
        (runIteration s (m :: rest) o t0).effects.countP isDeleteJob = 1) ∧
    ((fineTune s m.body o t0).ret = .ok false →
        (runIteration s (m :: rest) o t0).effects.countP isDeleteJob = 0 ∧
        (runIteration s (m :: rest) o t0).queue = m :: rest) ∧
    ((fineTune s m.body o t0).ret = .ok true ∨
      (fineTune s m.body o t0).ret = .ok false) := by
  have hdel := fineTune_deleteCount s m.body o t0 h
  have hret := fineTune_ret_eq s m.body o t0 h
  refine ⟨?_, ?_, ?_⟩
  · intro hr
    simp [runIteration, runIterationBody, h, hg, hr, List.countP_append,
      List.countP_cons, isDeleteJob, hdel]
  · intro hr
    constructor
    · simp [runIteration, runIterationBody, h, hg, hr, List.countP_append,
        List.countP_cons, isDeleteJob, hdel]
    · simp [runIteration, runIterationBody, h, hg, hr]
  · rw [hret]
    cases (fineTuneTryBody s m.body o).result <;> simp

/-- Witness for C2: a successful concrete run acknowledges once; a failing
one acknowledges never and leaves the message queued. -/
theorem ack_exactly_once_on_success_witness :
    (runIteration awsBound [msgEx] oAllOk 0).effects.countP isDeleteJob = 1 ∧
    (runIteration awsBound [msgEx] oFailDownload 0).effects.countP isDeleteJob = 0 ∧
    (runIteration awsBound [msgEx] oFailDownload 0).queue = [msgEx] := by
  refine ⟨?_, ?_, ?_⟩
  · exact (ack_exactly_once_on_success awsBound msgEx [] oAllOk 0 rfl rfl).1 rfl
  · exact ((ack_exactly_once_on_success awsBound msgEx [] oFailDownload 0 rfl rfl).2.1 rfl).1
  · exact ((ack_exactly_once_on_success awsBound msgEx [] oFailDownload 0 rfl rfl).2.1 rfl).2

/-- C3 counterexample: with the dataset download failing, the job reaches the
terminal status failed but no job-status write carries a `completed_at`
timestamp, refuting "completed_at is written iff the final status is
completed or failed". -/
theorem completed_at_missing_on_failure_cex :
    jobWrites (fineTune awsBound jobEx oFailDownload 0).effects =
      [(Status.running, some 0, none), (Status.failed, none, none)] ∧
    (fineTune awsBound jobEx oFailDownload 0).ret = Except.ok false := ⟨rfl, rfl⟩

/-- C3 (amended): in the queue/SQL variant with a bound client, completed_at
is written iff the final job status is completed: the success path writes
running with started_at and then completed with a strictly later
completed_at, while the failure path writes running and then failed with no
completed_at at all. -/
theorem completed_at_iff_completed_amended (s : AwsService) (job : JobData)
    (o : AwsOutcomes) (t0 : Nat) (h : s.cf_client = some ()) :
    ((fineTune s job o t0).ret = .ok true →
        jobWrites (fineTune s job o t0).effects =
          [(Status.running, some t0, none), (Status.completed, none, some (t0 + 1))] ∧
        t0 < t0 + 1) ∧
    ((fineTune s job o t0).ret = .ok false →
        jobWrites (fineTune s job o t0).effects =
          [(Status.running, some t0, none), (Status.failed, none, none)]) := by
  have hret := fineTune_ret_eq s job o t0 h
  constructor
  · intro hr
    cases htb : (fineTuneTryBody s job o).result with
    | ok url => exact ⟨fineTune_jobWrites_ok s job o t0 url h htb, Nat.lt_succ_self t0⟩
    | error e =>
        rw [hret, htb] at hr
        simp at hr
  · intro hr
    cases htb : (fineTuneTryBody s job o).result with
    | ok url =>
        rw [hret, htb] at hr
        simp at hr
    | error e => exact fineTune_jobWrites_err s job o t0 e h htb

/-- Witness for C3 (amended) at a concrete successful and a concrete failed
run. -/
theorem completed_at_iff_completed_amended_witness :
    (jobWrites (fineTune awsBound jobEx oAllOk 0).effects =
      [(Status.running, some 0, none), (Status.completed, none, some 1)] ∧ 0 < 1) ∧
    jobWrites (fineTune awsBound jobEx oFailDownload 0).effects =
      [(Status.running, some 0, none), (Status.failed, none, none)] := by
  exact ⟨(completed_at_iff_completed_amended awsBound jobEx oAllOk 0 rfl).1 rfl,
    (completed_at_iff_completed_amended awsBound jobEx oFailDownload 0 rfl).2 rfl⟩

/-- C4 counterexample: in the unsloth variant, dataset fetch, model load,
training and publish all succeed, yet because the final status push raises
inside the `try`, the run is diverted to the failure path — it returns False
and the last push carries status:failed, refuting "a failed status write is
logged but never aborts an otherwise-successful run". -/
theorem status_write_failure_aborts_run_cex :
    (unslothRun uInit [] oUPushFail 0).ret = Except.ok false ∧
    statusTagsOf
      ((pushedTagLists (unslothRun uInit [] oUPushFail 0).effects).getLast?.getD []) =
      [statusTag Status.failed] := ⟨rfl, rfl⟩

/-- C4 (amended): in the queue/SQL variant only, the property holds — the
status writers catch their own errors (one attempt, boolean result, no
exception reaches `fine_tune`) and `fine_tune` ignores those booleans, so
whenever the pipeline stages succeed it returns True and issues the
running/completed and training/ready writes regardless of write outcomes;
in the unsloth hub variant a failing status push raises and aborts the run. -/
theorem status_write_best_effort_amended (s : AwsService) (job : JobData)
    (o : AwsOutcomes) (t0 : Nat) (url : String) (h : s.cf_client = some ())
    (htb : (fineTuneTryBody s job o).result = .ok url) :
    (fineTune s job o t0).ret = .ok true ∧
    jobWrites (fineTune s job o t0).effects =
      [(Status.running, some t0, none), (Status.completed, none, some (t0 + 1))] ∧
    modelWrites (fineTune s job o t0).effects =
      [(Status.training, none), (Status.ready, some url)] ∧
    (∀ ok : Bool, (CloudflareClient.update_job_status ok).2 = ok ∧
        (CloudflareClient.update_job_status ok).1.countP isD1Query = 1) := by
  refine ⟨?_, fineTune_jobWrites_ok s job o t0 url h htb,
    fineTune_modelWrites_ok s job o t0 url h htb, ?_⟩
  · rw [fineTune_ret_eq s job o t0 h, htb]
  · intro ok
    cases ok <;> exact ⟨rfl, rfl⟩

/-- Witness for C4 (amended): a concrete fully-successful run returns True,
and a failing status write is reported as a boolean, not an exception. -/
theorem status_write_best_effort_amended_witness :
    (fineTune awsBound jobEx oAllOk 0).ret = Except.ok true ∧
    (CloudflareClient.update_job_status false).2 = false := by
  have h := status_write_best_effort_amended awsBound jobEx oAllOk 0
    (adapterUrlOf "m1") rfl rfl
  exact ⟨h.1, (h.2.2.2 false).1⟩

/-- C5 counterexample: after a fully successful job on a fresh bound service,
`reset_model` ran exactly once and the models dictionary is empty, but the
base model's tokenizer is still resident in `self.tokenizers` — the slot does
not report empty, refuting "no base-model weights (or tokenizer) for any
base_model remain resident for the next poll cycle". -/
theorem tokenizer_still_resident_cex :
    (fineTune awsBound jobEx oAllOk 0).effects.countP isReset = 1 ∧
    (fineTune awsBound jobEx oAllOk 0).state.models = [] ∧
    (fineTune awsBound jobEx oAllOk 0).state.tokenizers = ["base-7b"] := ⟨rfl, rfl, rfl⟩

/-- C5 (amended): with a bound client and a duplicate-free models dictionary,
`reset_model` runs exactly once per `fine_tune` call in the `finally` block
and erases the job's base-model weights entry, which is then no longer
resident; the tokenizer cache, however, is left untouched by the reset. -/
theorem reset_model_once_amended (s : AwsService) (job : JobData) (o : AwsOutcomes)
    (t0 : Nat) (h : s.cf_client = some ()) (hnd : s.models.Nodup) :
    (fineTune s job o t0).effects.countP isReset = 1 ∧
    (fineTune s job o t0).state.models = s.models.erase job.base_model ∧
    job.base_model ∉ (fineTune s job o t0).state.models ∧
    (fineTune s job o t0).state.tokenizers =
      (fineTuneTryBody s job o).state.tokenizers := by
  refine ⟨fineTune_resetCount s job o t0 h, fineTune_models_erase s job o t0 h, ?_,
    fineTune_state_tokenizers s job o t0 h⟩
  rw [fineTune_models_erase s job o t0 h]
  intro hmem
  exact ((List.Nodup.mem_erase_iff hnd).mp hmem).1 rfl

/-- Witness for C5 (amended) at a concrete run from the fresh bound state. -/
theorem reset_model_once_amended_witness :
    (fineTune awsBound jobEx oAllOk 0).effects.countP isReset = 1 ∧
    "base-7b" ∉ (fineTune awsBound jobEx oAllOk 0).state.models := by
  have h := reset_model_once_amended awsBound jobEx oAllOk 0 rfl List.nodup_nil
  exact ⟨h.1, h.2.2.1⟩

/-- C6 counterexample: a fully successful unsloth run pushes the status tags
loading_model, training, completed; prepended with the externally created
pending status, this sequence is not a prefix of either claimed chain
(pending, running, completed or pending, running, failed), refuting the claim
for the model-hub variant. -/
theorem unsloth_status_chain_cex :
    (unslothRun uInit [] oUAllOk 0).ret = Except.ok true ∧
    pushedStatuses (unslothRun uInit [] oUAllOk 0).effects =
      [statusTag Status.loading_model, statusTag Status.training,
        statusTag Status.completed] ∧
    (List.isPrefixOf
        (statusTag Status.pending ::
          pushedStatuses (unslothRun uInit [] oUAllOk 0).effects)
        chainCompletedTags ||
      List.isPrefixOf
        (statusTag Status.pending ::
          pushedStatuses (unslothRun uInit [] oUAllOk 0).effects)
        chainFailedTags) = false := ⟨rfl, rfl, rfl⟩

/-- C6 (amended): in the queue/SQL variant with a bound client the property
holds per record: the worker's job-status writes are exactly running then
completed on success, or running then failed on failure, so with the external
pending prepended the observed job sequence is a prefix of the allowed
chains, never out of order and with nothing after the terminal status; the
model record analogously follows training, ready or training, failed.  The
model-hub variant instead tags loading_model and training in place of
running (see the counterexample). -/
theorem status_monotonic_amended (s : AwsService) (job : JobData) (o : AwsOutcomes)
    (t0 : Nat) (h : s.cf_client = some ()) :
    ((jobWrites (fineTune s job o t0).effects).map Prod.fst =
        [Status.running, Status.completed] ∧
      (modelWrites (fineTune s job o t0).effects).map Prod.fst =
        [Status.training, Status.ready] ∧
      List.isPrefixOf
        (Status.pending :: (jobWrites (fineTune s job o t0).effects).map Prod.fst)
        [Status.pending, Status.running, Status.completed] = true ∧
      (fineTune s job o t0).ret = .ok true) ∨
    ((jobWrites (fineTune s job o t0).effects).map Prod.fst =
        [Status.running, Status.failed] ∧
      (modelWrites (fineTune s job o t0).effects).map Prod.fst =
        [Status.training, Status.failed] ∧
      List.isPrefixOf
        (Status.pending :: (jobWrites (fineTune s job o t0).effects).map Prod.fst)
        [Status.pending, Status.running, Status.failed] = true ∧
      (fineTune s job o t0).ret = .ok false) := by
  cases htb : (fineTuneTryBody s job o).result with
  | ok url =>
      left
      rw [fineTune_jobWrites_ok s job o t0 url h htb,
        fineTune_modelWrites_ok s job o t0 url h htb,
        fineTune_ret_eq s job o t0 h, htb]
      exact ⟨rfl, rfl, rfl, rfl⟩
  | error e =>
      right
      rw [fineTune_jobWrites_err s job o t0 e h htb,
        fineTune_modelWrites_err s job o t0 e h htb,
        fineTune_ret_eq s job o t0 h, htb]
      exact ⟨rfl, rfl, rfl, rfl⟩

/-- Witness for C6 (amended) at a concrete successful run. -/
theorem status_monotonic_amended_witness :
    ((jobWrites (fineTune awsBound jobEx oAllOk 0).effects).map Prod.fst =
        [Status.running, Status.completed] ∧
      (modelWrites (fineTune awsBound jobEx oAllOk 0).effects).map Prod.fst =
        [Status.training, Status.ready] ∧
      List.isPrefixOf
        (Status.pending :: (jobWrites (fineTune awsBound jobEx oAllOk 0).effects).map
          Prod.fst)
        [Status.pending, Status.running, Status.completed] = true ∧
      (fineTune awsBound jobEx oAllOk 0).ret = .ok true) ∨
    ((jobWrites (fineTune awsBound jobEx oAllOk 0).effects).map Prod.fst =
        [Status.running, Status.failed] ∧
      (modelWrites (fineTune awsBound jobEx oAllOk 0).effects).map Prod.fst =
        [Status.training, Status.failed] ∧
      List.isPrefixOf
        (Status.pending :: (jobWrites (fineTune awsBound jobEx oAllOk 0).effects).map
          Prod.fst)
        [Status.pending, Status.running, Status.failed] = true ∧
      (fineTune awsBound jobEx oAllOk 0).ret = .ok false) :=
  status_monotonic_amended awsBound jobEx oAllOk 0 rfl

/-- C7 counterexample: running the unsloth worker on a card that already
carries an error_details tag, with the model load failing, produces a failure
push whose tag list contains two error_details tags — the in-run update
removed only status tags, refuting "at most one error_details tag exists on
the card after any update". -/
theorem error_details_accumulate_cex :
    ((pushedTagLists (unslothRun uInit cardWithOldError oUOom 0).effects).getLast?.getD
        []).countP (fun x => isPre errKey x) = 2 := rfl

/-- C7 (amended): the in-run status updates of the unsloth worker remove only
prior status tags, so after any update exactly one status tag is present, but
error_details tags accumulate: its failure update adds one to however many
were already on the card.  Only error_handler.update_model_status removes
both kinds first, guaranteeing at most one of each. -/
theorem tag_replace_amended (tags : List Chars) (msg : Chars) (t : Nat)
    (st : Status) (om : Option Chars) :
    (unslothFailTags tags msg t).countP (fun x => isPre statusKey x) = 1 ∧
    (unslothFailTags tags msg t).countP (fun x => isPre errKey x) =
      tags.countP (fun x => isPre errKey x) + 1 ∧
    (update_model_status_tags tags st om t).countP (fun x => isPre statusKey x) = 1 ∧
    (update_model_status_tags tags st om t).countP (fun x => isPre errKey x) ≤ 1 := by
  refine ⟨?_, ?_, ?_, ?_⟩
  · unfold unslothFailTags
    rw [List.countP_append, removeStatusTags_status_count]
    simp [List.countP_cons, isPre_statusKey_statusTag, isPre_statusKey_errTag,
      isPre_statusKey_completedAt]
  · unfold unslothFailTags
    rw [List.countP_append, removeStatusTags_err_count]
    simp [List.countP_cons, isPre_errKey_statusTag, isPre_errKey_errTag,
      isPre_errKey_completedAt]
  · unfold update_model_status_tags
    cases om with
    | none =>
        by_cases hf : st = Status.failed <;>
          simp [hf, List.countP_append, List.countP_cons,
            removeStatusAndErrorTags_status_count, isPre_statusKey_statusTag,
            isPre_statusKey_completedAt]
    | some m =>
        by_cases hf : st = Status.failed <;>
          simp [hf, List.countP_append, List.countP_cons,
            removeStatusAndErrorTags_status_count, isPre_statusKey_statusTag,
            isPre_statusKey_errTag, isPre_statusKey_completedAt]
  · unfold update_model_status_tags
    cases om with
    | none =>
        by_cases hf : st = Status.failed <;>
          simp [hf, List.countP_append, List.countP_cons,
            removeStatusAndErrorTags_err_count, isPre_errKey_statusTag,
            isPre_errKey_completedAt]
    | some m =>
        by_cases hf : st = Status.failed <;>
          simp [hf, List.countP_append, List.countP_cons,
            removeStatusAndErrorTags_err_count, isPre_errKey_statusTag,
            isPre_errKey_errTag, isPre_errKey_completedAt]

set_option maxRecDepth 4000 in
/-- C8 counterexample: when training raises with a 150-character message, the
unsloth failure push records the raw `str(e)` in its error_details tag with
no truncation — the recorded detail is longer than 100 characters, refuting
"truncated to at most 100 characters for every possible message". -/
theorem error_details_untruncated_cex :
    errorDetailsTag (List.replicate 150 'a') ∈
      ((pushedTagLists (unslothRun uInit [] oULongErr 0).effects).getLast?.getD []) ∧
    100 < (List.replicate 150 'a').length := by
  refine ⟨by decide, by decide⟩

/-- C8 (amended): error_handler.update_model_status truncates the recorded
detail to `error_message[:100]`, hence at most 100 characters, for every
message; the unsloth run's inline failure path instead records the full
message untruncated. -/
theorem error_details_truncation_amended (tags : List Chars) (msg : Chars) (t : Nat) :
    errorDetailsTag (msg.take 100) ∈
      update_model_status_tags tags Status.failed (some msg) t ∧
    (msg.take 100).length ≤ 100 ∧
    errorDetailsTag msg ∈ unslothFailTags tags msg t := by
  refine ⟨?_, ?_, ?_⟩
  · unfold update_model_status_tags
    simp
  · exact List.length_take_le 100 msg
  · unfold unslothFailTags
    simp

/-- C9 counterexample: a failing upload raises with the temporary zip still
present — `os.remove(zip_path)` is only reached after a successful transfer —
refuting "the zip is removed whether the upload succeeds or fails". -/
theorem upload_zip_left_on_failure_cex :
    (CloudflareClient.upload_model "m1" false).zipLeft = true ∧
    (CloudflareClient.upload_model "m1" false).effects.countP isRemoveZip = 0 ∧
    (SupabaseClient.upload_model "m1" false).zipLeft = true := ⟨rfl, rfl, rfl⟩

/-- C9 (amended): in both storage clients the temporary zip is removed
exactly when the upload succeeds; on failure `upload_model` logs and
re-raises with the zip left behind. -/
theorem upload_zip_cleanup_amended (m : String) :
    (CloudflareClient.upload_model m true).zipLeft = false ∧
    (CloudflareClient.upload_model m true).effects.countP isRemoveZip = 1 ∧
    (CloudflareClient.upload_model m false).zipLeft = true ∧
    (CloudflareClient.upload_model m false).effects.countP isRemoveZip = 0 ∧
    (CloudflareClient.upload_model m false).result =
      .error (.raised (strT "upload failed")) ∧
    (SupabaseClient.upload_model m true).zipLeft = false ∧
    (SupabaseClient.upload_model m false).zipLeft = true := by
  unfold CloudflareClient.upload_model SupabaseClient.upload_model
  refine ⟨rfl, ?_, rfl, ?_, rfl, rfl, rfl⟩ <;> simp [isRemoveZip, List.countP_cons]

/-- C10: in both single-job model-hub variants, when metadata retrieval fails
or the metadata is empty — paths on which the local `base_model` is never
bound — the `finally` block's `if base_model:` raises `UnboundLocalError`,
superseding the pending `return False` or pending exception, so `run` and
`fine_tune` propagate an exception instead of returning False; and on the
empty-metadata early-return path no status is written at all (no card push,
no metadata update). -/
theorem unbound_base_model_finally_raises
    (s : UnslothService) (card0 : List Chars) (o : UOutcomes)
    (hs : HubService) (ho : HOutcomes) (t0 : Nat) :
    (∀ m, o.loadCard = some m →
        unslothRun s card0 o t0 =
          { effects := [.loadCard, .logError], ret := .error .unboundLocalError,
            state := s }) ∧
    (o.loadCard = none → o.metadataNonempty = false →
        unslothRun s card0 o t0 =
          { effects := [.loadCard], ret := .error .unboundLocalError, state := s }) ∧
    (∀ m, ho.modelInfo = some m →
        hubFineTune hs ho t0 =
          { effects := [.modelInfo, .logError,
              .metadataUpdate .failed (some m) false true],
            ret := .error .unboundLocalError, state := hs }) ∧
    (ho.modelInfo = none → ho.metadataNonempty = false →
        hubFineTune hs ho t0 =
          { effects := [.modelInfo], ret := .error .unboundLocalError,
            state := hs }) := by
  refine ⟨?_, ?_, ?_, ?_⟩
  · intro m hm
    simp [unslothRun, hm, unslothFinally]
  · intro h1 h2
    simp [unslothRun, h1, h2, unslothFinally]
  · intro m hm
    cases hmf : ho.markFailed <;>
      simp [hubFineTune, hm, hubExcept, hubFinally, hmf, PyErr.msg]
  · intro h1 h2
    simp [hubFineTune, h1, h2, hubFinally]

/-- Witness for C10 at concrete oracles for all four covered paths. -/
theorem unbound_base_model_finally_raises_witness :
    unslothRun uInit [] oUNoCard 0 =
      { effects := [.loadCard, .logError], ret := .error .unboundLocalError,
        state := uInit } ∧
    unslothRun uInit [] oUNoMeta 0 =
      { effects := [.loadCard], ret := .error .unboundLocalError, state := uInit } ∧
    hubFineTune hInit oHNoInfo 0 =
      { effects := [.modelInfo, .logError,
          .metadataUpdate .failed (some (strT "404 not found")) false true],
        ret := .error .unboundLocalError, state := hInit } ∧
    hubFineTune hInit oHNoMeta 0 =
      { effects := [.modelInfo], ret := .error .unboundLocalError, state := hInit } := by
  refine ⟨?_, ?_, ?_, ?_⟩
  · exact (unbound_base_model_finally_raises uInit [] oUNoCard hInit oHNoInfo 0).1 _ rfl
  · exact (unbound_base_model_finally_raises uInit [] oUNoMeta hInit oHNoInfo 0).2.1 rfl rfl
  · exact (unbound_base_model_finally_raises uInit [] oUNoCard hInit oHNoInfo 0).2.2.1 _ rfl
  · exact (unbound_base_model_finally_raises uInit [] oUNoCard hInit oHNoMeta 0).2.2.2
      rfl rfl

end TrainChimp
